import Mathlib

/-!
# ExpPlanning, lab_01: a single-server queueing simulation

A verification development for `lab_01/main.go`.  The program is a Go GUI whose
start handler launches two request generators, a dispatcher and one goroutine
per `Server.Process` call, and then polls a shared counter.

The embedding has three layers.

* A numeric layer: `float64` values (`F64`), `int64` wrap-around and the
  `time.Duration` conversions used by the program.
* The sequential code: `Server.Process` with an explicit clock, the offered
  load, the metrics, and the parsing gate of the start handler.
* The goroutines as a labelled transition system: `step` executes one atomic
  action of one goroutine, `run` executes a schedule.

Modelling conventions.

* A finite `float64` is the rational it denotes and arithmetic on finite values
  is exact: rounding to 53 bits, overflow to infinity and signed zeros are not
  modelled.  Infinities and NaN are explicit values.
* Instants are nanoseconds on the monotonic clock (`Int`); a `time.Duration`
  is an `Int` number of nanoseconds, wrapped to 64 bits where the program
  multiplies or accumulates input-dependent values.
* Counters that move by one per event (`processed`) and sums of measured
  wall-clock waits are unbounded integers.
* Memory is sequentially consistent and each Go statement (each mutex-protected
  section of `Process`) is one atomic action.
-/

namespace ExpPlanning

/-! ## Numeric layer -/

/-- Values of Go's `float64`: a finite value, the two infinities, or NaN. -/
inductive F64 where
  | fin (q : ℚ)
  | posInf
  | negInf
  | nan
  deriving DecidableEq

namespace F64

/-- Conversion `float64(n)` of an integer. -/
def ofInt (n : Int) : F64 := fin n

/-- Negation of a `float64`. -/
def neg : F64 → F64
  | fin q => fin (-q)
  | posInf => negInf
  | negInf => posInf
  | nan => nan

/-- Sum of two `float64` values. -/
def add : F64 → F64 → F64
  | fin a, fin b => fin (a + b)
  | nan, _ => nan
  | _, nan => nan
  | posInf, negInf => nan
  | negInf, posInf => nan
  | posInf, _ => posInf
  | _, posInf => posInf
  | negInf, _ => negInf
  | _, negInf => negInf

/-- Difference of two `float64` values. -/
def sub (a b : F64) : F64 := add a (neg b)

/-- An infinity of the given sign, NaN for sign zero. -/
def infOfSign (q : ℚ) : F64 :=
  if 0 < q then posInf else if q < 0 then negInf else nan

/-- Product of two `float64` values. -/
def mul : F64 → F64 → F64
  | fin a, fin b => fin (a * b)
  | nan, _ => nan
  | _, nan => nan
  | fin a, posInf => infOfSign a
  | fin a, negInf => infOfSign (-a)
  | posInf, fin b => infOfSign b
  | negInf, fin b => infOfSign (-b)
  | posInf, posInf => posInf
  | negInf, negInf => posInf
  | posInf, negInf => negInf
  | negInf, posInf => negInf

/-- Quotient of two `float64` values.  Division by zero does not trap: a
nonzero finite value over zero is an infinity, and zero over zero is NaN. -/
def div : F64 → F64 → F64
  | fin a, fin b => if b = 0 then infOfSign a else fin (a / b)
  | nan, _ => nan
  | _, nan => nan
  | fin _, posInf => fin 0
  | fin _, negInf => fin 0
  | posInf, fin b => if 0 ≤ b then posInf else negInf
  | negInf, fin b => if 0 ≤ b then negInf else posInf
  | posInf, posInf => nan
  | negInf, negInf => nan
  | posInf, negInf => nan
  | negInf, posInf => nan

end F64

/-- Truncation of a rational toward zero. -/
def truncQ (q : ℚ) : Int := Int.tdiv q.num q.den

/-- Smallest `int64`. -/
def minInt64 : Int := -(2 ^ 63)

/-- Largest `int64`. -/
def maxInt64 : Int := 2 ^ 63 - 1

/-- Two's-complement wrap of an integer to `int64`. -/
def wrap64 (n : Int) : Int := (n + 2 ^ 63) % 2 ^ 64 - 2 ^ 63

/-- The constant `time.Millisecond`, in nanoseconds. -/
def Millisecond : Int := 1000000

/-- Conversion `time.Duration(x)` of a `float64`: the fraction is discarded
(truncation toward zero).  For a value outside `int64`, an infinity or NaN, Go
leaves the result to the implementation; the value taken here is the one
produced on amd64. -/
def durationOfF64 : F64 → Int
  | F64.fin q => if minInt64 ≤ truncQ q ∧ truncQ q ≤ maxInt64 then truncQ q else minInt64
  | _ => minInt64

/-- The expression `time.Duration(x*100) * time.Millisecond`, in nanoseconds. -/
def scaledDuration (x : F64) : Int :=
  wrap64 (durationOfF64 (F64.mul x (F64.fin 100)) * Millisecond)

/-- Method `Duration.Milliseconds`: whole milliseconds, truncated toward zero. -/
def milliseconds (d : Int) : Int := Int.tdiv d Millisecond

/-- Length of the pause made by `time.Sleep(d)`: nothing for `d ≤ 0`. -/
def sleepSpan (d : Int) : Int := max d 0

/-! ## Data model -/

/-- Record `Request`. -/
structure Request where
  arrivalTime : F64
  serviceTime : F64
  typeID : Nat
  inQueue : Int
  deriving DecidableEq

/-- Record `Server` (the mutex is represented by the atomicity of the sections
it protects). -/
structure Server where
  busy : Bool
  busyTime : Int
  deriving DecidableEq

/-! ## `Server.Process`, executed alone, with an explicit clock -/

/-- Lines 31-34 of `Process`: mark the server busy; the local `busyTime`
duration is `scaledDuration req.serviceTime`. -/
def Server.acquire (s : Server) : Server := { s with busy := true }

/-- Line 36 of `Process`: the amount added to the wait accumulator when the
clock reads `now`. -/
def waitOf (req : Request) (now : Int) : Int := milliseconds (now - req.inQueue)

/-- Lines 39-41 of `Process`: clear the busy flag and add the whole
milliseconds of the local duration `d` to `busyTime`. -/
def Server.release (s : Server) (d : Int) : Server :=
  { busy := false, busyTime := wrap64 (s.busyTime + milliseconds d) }

/-- What one call of `Process` leaves behind. -/
structure ProcessResult where
  server : Server
  processed : Int
  waitTimeSumMilli : Int
  now : Int
  deriving DecidableEq

/-- Method `Server.Process` run to completion with no other goroutine
interleaved.  `now` is the clock when the call starts (the clock only moves in
`time.Sleep`), and `late` is by how many nanoseconds the sleep overshoots. -/
def Server.Process (s : Server) (req : Request) (processed : Int)
    (waitTimeSumMilli : Int) (now : Int) (late : Nat) : ProcessResult :=
  let s1 := s.acquire
  let busyTime := scaledDuration req.serviceTime
  let w := waitTimeSumMilli + waitOf req now
  let now1 := now + sleepSpan busyTime + late
  { server := s1.release busyTime
    processed := processed + 1
    waitTimeSumMilli := w
    now := now1 }

/-! ## Offered load and final metrics -/

/-- Line 149: `load := rate1/serviceRate1 + rate2/serviceRate2`. -/
def load (rate1 serviceRate1 rate2 serviceRate2 : ℚ) : F64 :=
  F64.add (F64.div (F64.fin rate1) (F64.fin serviceRate1))
    (F64.div (F64.fin rate2) (F64.fin serviceRate2))

/-- Line 178: `factLoad := float64(server.busyTime) / float64(elapsed)`. -/
def factLoad (busyTime elapsed : Int) : F64 :=
  F64.div (F64.ofInt busyTime) (F64.ofInt elapsed)

/-- Lines 181-182: `float64(waitTimeSumMilli) / float64(processed)`. -/
def avgWait (waitTimeSumMilli processed : Int) : F64 :=
  F64.div (F64.ofInt waitTimeSumMilli) (F64.ofInt processed)

/-! ## The start handler up to the launch of the engine -/

/-- One of the two request streams. -/
inductive Stream where
  | one
  | two
  deriving DecidableEq

/-- The `id` argument passed to `generateRequests` for a stream. -/
def Stream.id : Stream → Nat
  | one => 1
  | two => 2

/-- Content of `statusLabel`. -/
inductive Status where
  | idle
  | badRate1
  | badServiceRate1
  | badRate2
  | badServiceRate2
  | badRequestsCount
  | running
  | completed (n : Int)
  deriving DecidableEq

/-- The five entries as `fmt.Sscanf` reads them: `none` when it returns an
error, otherwise the number scanned. -/
structure FormInput where
  rateEntry1 : Option ℚ
  serviceRateEntry1 : Option ℚ
  rateEntry2 : Option ℚ
  serviceRateEntry2 : Option ℚ
  requestsCountEntry : Option Int
  deriving DecidableEq

/-- Local `uniformDist` of a generator (line 47). -/
structure Uniform where
  min : F64
  max : F64
  deriving DecidableEq

/-- Library function `distuv.Uniform.Rand`: `rnd*(Max-Min) + Min` for a draw
`rnd` of `rand.Float64`. -/
def Uniform.rand (u : Uniform) (rnd : ℚ) : F64 :=
  F64.add (F64.mul (F64.fin rnd) (F64.sub u.max u.min)) u.min

/-- Library function `distuv.Exponential.Rand`: `rnd / Rate` for a draw `rnd`
of `rand.ExpFloat64`. -/
def exponentialRand (rate : ℚ) (rnd : ℚ) : F64 :=
  F64.div (F64.fin rnd) (F64.fin rate)

/-- Control point of a `generateRequests` goroutine. -/
inductive GenPc where
  | init
  | select
  | sleeping (arrival service : F64) (wake : Int)
  | sending (req : Request)
  | stopped
  deriving DecidableEq

/-- A `generateRequests` goroutine: its arguments, its local `uniformDist`
(unset before line 47 has run) and its control point. -/
structure Gen where
  rate : ℚ
  serviceRate : ℚ
  id : Nat
  uniformDist : Option Uniform
  pc : GenPc
  deriving DecidableEq

/-- Control point of the dispatcher goroutine (lines 156-171): at its `select`,
holding a request of a stream while `server.busy` is polled, or returned. -/
inductive DispPc where
  | select
  | spin (req : Request) (i : Stream)
  | stopped
  deriving DecidableEq

/-- Control point of one `Server.Process` goroutine: created, past lines 31-34
with its local duration, past line 36 and asleep, or returned. -/
inductive ProcPc where
  | entry
  | acquired (busyTime : Int)
  | sleeping (busyTime : Int) (wake : Int)
  | done
  deriving DecidableEq

/-- One `Server.Process` goroutine: its request, the stream whose accumulator
it was given, its control point, and (a history variable) the amount it added
at line 36. -/
structure Proc where
  req : Request
  stream : Stream
  pc : ProcPc
  waited : Int
  deriving DecidableEq

/-- Control point of the handler after the goroutines are launched: polling at
line 174, blocked in the send of line 175, then lines 177, 178, 181, 182-185. -/
inductive MainPc where
  | poll
  | send
  | elapsedAt
  | factLoadAt
  | avgWait1At
  | avgWait2At
  | done
  deriving DecidableEq

/-- State of one run: the handler's locals, the labels, the clock, and the
control points of all goroutines. -/
structure State where
  requestsCount : Int
  clock : Int
  startTime : Int
  queue1 : List Request
  queue2 : List Request
  server : Server
  processed : Int
  waitTimeSum1Milli : Int
  waitTimeSum2Milli : Int
  gen1 : Gen
  gen2 : Gen
  disp : DispPc
  procs : List Proc
  main : MainPc
  elapsed : Int
  avgWait1 : F64
  statusLabel : Status
  loadLabel : Option F64
  factLoadLabel : Option F64
  avgWaitLabel : Option (F64 × F64)
  deriving DecidableEq

/-- Lines 140-171: the state in which the handler enters its polling loop at
clock `now`.  The load is computed and shown, the queues are empty, the server
is idle, and the two generators and the dispatcher have been launched. -/
def engineStart (rate1 serviceRate1 rate2 serviceRate2 : ℚ) (requestsCount : Int)
    (now : Int) : State :=
  { requestsCount := requestsCount
    clock := now
    startTime := now
    queue1 := []
    queue2 := []
    server := { busy := false, busyTime := 0 }
    processed := 0
    waitTimeSum1Milli := 0
    waitTimeSum2Milli := 0
    gen1 := { rate := rate1, serviceRate := serviceRate1, id := 1,
              uniformDist := none, pc := GenPc.init }
    gen2 := { rate := rate2, serviceRate := serviceRate2, id := 2,
              uniformDist := none, pc := GenPc.init }
    disp := DispPc.select
    procs := []
    main := MainPc.poll
    elapsed := 0
    avgWait1 := F64.fin 0
    statusLabel := Status.running
    loadLabel := some (load rate1 serviceRate1 rate2 serviceRate2)
    factLoadLabel := none
    avgWaitLabel := none }

/-- Outcome of the parsing gate of the start handler. -/
inductive StartResult where
  | rejected (status : Status)
  | started (s : State)
  deriving DecidableEq

/-- Lines 112-171 of the start handler, pressed at clock `now`: the five scans
in order, each with its own error label and early return, then the launch. -/
def startButton (inp : FormInput) (now : Int) : StartResult :=
  match inp.rateEntry1 with
  | none => StartResult.rejected Status.badRate1
  | some rate1 =>
    match inp.serviceRateEntry1 with
    | none => StartResult.rejected Status.badServiceRate1
    | some serviceRate1 =>
      match inp.rateEntry2 with
      | none => StartResult.rejected Status.badRate2
      | some rate2 =>
        match inp.serviceRateEntry2 with
        | none => StartResult.rejected Status.badServiceRate2
        | some serviceRate2 =>
          match inp.requestsCountEntry with
          | none => StartResult.rejected Status.badRequestsCount
          | some requestsCount =>
            StartResult.started
              (engineStart rate1 serviceRate1 rate2 serviceRate2 requestsCount now)

/-! ## The goroutines as a transition system -/

/-- Generator of a stream. -/
def State.gen (s : State) : Stream → Gen
  | Stream.one => s.gen1
  | Stream.two => s.gen2

/-- Replace the generator of a stream. -/
def State.setGen (s : State) (i : Stream) (g : Gen) : State :=
  match i with
  | Stream.one => { s with gen1 := g }
  | Stream.two => { s with gen2 := g }

/-- Queue of a stream. -/
def State.queue (s : State) : Stream → List Request
  | Stream.one => s.queue1
  | Stream.two => s.queue2

/-- Replace the queue of a stream. -/
def State.setQueue (s : State) (i : Stream) (q : List Request) : State :=
  match i with
  | Stream.one => { s with queue1 := q }
  | Stream.two => { s with queue2 := q }

/-- Wait accumulator of a stream. -/
def State.waitTimeSumMilli (s : State) : Stream → Int
  | Stream.one => s.waitTimeSum1Milli
  | Stream.two => s.waitTimeSum2Milli

/-- Add to the wait accumulator of a stream. -/
def State.addWait (s : State) (i : Stream) (w : Int) : State :=
  match i with
  | Stream.one => { s with waitTimeSum1Milli := s.waitTimeSum1Milli + w }
  | Stream.two => { s with waitTimeSum2Milli := s.waitTimeSum2Milli + w }

/-- Capacity of each queue channel (lines 142-143). -/
def queueCap : Nat := 10000

/-- One atomic action of one goroutine, or the passing of time.  Random draws
are carried by the action. -/
inductive Action where
  | tick (d : Nat)
  | genInit (i : Stream)
  | genStop (i : Stream)
  | genDraw (i : Stream) (u e : ℚ)
  | genWake (i : Stream)
  | genEnq (i : Stream)
  | dispStop
  | dispRecv (i : Stream)
  | dispSpawn
  | procAcquire (k : Nat)
  | procWait (k : Nat)
  | procRelease (k : Nat)
  | mainLeave
  | mainElapsed
  | mainFactLoad
  | mainAvgWait1
  | mainAvgWait2
  deriving DecidableEq

/-- One step of the system; `none` when the action is not enabled.

* `tick`: the clock advances.
* `genInit`: line 47.  `genStop`: the stop case of the generator's `select`,
  taken together with the handler's blocked send.  `genDraw`: the default case,
  lines 53-55 up to the start of the sleep (not available while the handler is
  blocked in its send).  `genWake`: the sleep is over and `time.Now()` is read
  for line 56.  `genEnq`: the send of line 56, once the queue has room.
* `dispStop`, `dispRecv`: the cases of the dispatcher's `select`.  `dispSpawn`:
  the poll of `server.busy` reads `false` and the `go` statement runs.
* `procAcquire`: lines 31-34.  `procWait`: line 36 and the start of the sleep.
  `procRelease`: lines 39-43, once the sleep is over.
* `mainLeave`: the test of line 174 succeeds and the handler blocks in the send
  of line 175.  `mainElapsed`, `mainFactLoad`, `mainAvgWait1`, `mainAvgWait2`:
  lines 177, 178-179, 181, 182-185. -/
def step (s : State) : Action → Option State
  | Action.tick d => some { s with clock := s.clock + d }
  | Action.genInit i =>
    match (s.gen i).pc with
    | GenPc.init =>
      some (s.setGen i { s.gen i with
        uniformDist := some { min := F64.div (F64.fin 1) (F64.fin (s.gen i).rate)
                              max := F64.div (F64.fin 2) (F64.fin (s.gen i).rate) }
        pc := GenPc.select })
    | _ => none
  | Action.genStop i =>
    if (s.gen i).pc = GenPc.select ∧ s.main = MainPc.send then
      some { s.setGen i { s.gen i with pc := GenPc.stopped } with main := MainPc.elapsedAt }
    else none
  | Action.genDraw i u e =>
    match (s.gen i).uniformDist with
    | some dist =>
      if (s.gen i).pc = GenPc.select ∧ s.main ≠ MainPc.send ∧ 0 ≤ u ∧ u < 1 ∧ 0 ≤ e then
        let arrival := dist.rand u
        let service := exponentialRand (s.gen i).serviceRate e
        some (s.setGen i { s.gen i with
          pc := GenPc.sleeping arrival service
                  (s.clock + sleepSpan (scaledDuration arrival)) })
      else none
    | none => none
  | Action.genWake i =>
    match (s.gen i).pc with
    | GenPc.sleeping arrival service wake =>
      if wake ≤ s.clock then
        some (s.setGen i { s.gen i with
          pc := GenPc.sending { arrivalTime := arrival, serviceTime := service,
                                typeID := (s.gen i).id, inQueue := s.clock } })
      else none
    | _ => none
  | Action.genEnq i =>
    match (s.gen i).pc with
    | GenPc.sending req =>
      if (s.queue i).length < queueCap then
        some ((s.setQueue i (s.queue i ++ [req])).setGen i
          { s.gen i with pc := GenPc.select })
      else none
    | _ => none
  | Action.dispStop =>
    if s.disp = DispPc.select ∧ s.main = MainPc.send then
      some { s with disp := DispPc.stopped, main := MainPc.elapsedAt }
    else none
  | Action.dispRecv i =>
    match s.disp, s.queue i with
    | DispPc.select, req :: rest =>
      some { s.setQueue i rest with disp := DispPc.spin req i }
    | _, _ => none
  | Action.dispSpawn =>
    match s.disp with
    | DispPc.spin req i =>
      if s.server.busy = false then
        some { s with
          procs := s.procs ++ [{ req := req, stream := i, pc := ProcPc.entry, waited := 0 }]
          disp := DispPc.select }
      else none
    | _ => none
  | Action.procAcquire k =>
    match s.procs[k]? with
    | some p =>
      match p.pc with
      | ProcPc.entry =>
        some { s with
          server := s.server.acquire
          procs := s.procs.set k
            { p with pc := ProcPc.acquired (scaledDuration p.req.serviceTime) } }
      | _ => none
    | none => none
  | Action.procWait k =>
    match s.procs[k]? with
    | some p =>
      match p.pc with
      | ProcPc.acquired busyTime =>
        some { s.addWait p.stream (waitOf p.req s.clock) with
          procs := s.procs.set k
            { p with pc := ProcPc.sleeping busyTime (s.clock + sleepSpan busyTime)
                     waited := waitOf p.req s.clock } }
      | _ => none
    | none => none
  | Action.procRelease k =>
    match s.procs[k]? with
    | some p =>
      match p.pc with
      | ProcPc.sleeping busyTime wake =>
        if wake ≤ s.clock then
          some { s with
            server := s.server.release busyTime
            processed := s.processed + 1
            procs := s.procs.set k { p with pc := ProcPc.done } }
        else none
      | _ => none
    | none => none
  | Action.mainLeave =>
    if s.main = MainPc.poll ∧ s.requestsCount ≤ s.processed then
      some { s with main := MainPc.send }
    else none
  | Action.mainElapsed =>
    if s.main = MainPc.elapsedAt then
      some { s with elapsed := milliseconds (s.clock - s.startTime), main := MainPc.factLoadAt }
    else none
  | Action.mainFactLoad =>
    if s.main = MainPc.factLoadAt then
      some { s with factLoadLabel := some (factLoad s.server.busyTime s.elapsed)
                    main := MainPc.avgWait1At }
    else none
  | Action.mainAvgWait1 =>
    if s.main = MainPc.avgWait1At then
      some { s with avgWait1 := avgWait s.waitTimeSum1Milli s.processed
                    main := MainPc.avgWait2At }
    else none
  | Action.mainAvgWait2 =>
    if s.main = MainPc.avgWait2At then
      some { s with
        avgWaitLabel := some (s.avgWait1, avgWait s.waitTimeSum2Milli s.processed)
        statusLabel := Status.completed s.requestsCount
        main := MainPc.done }
    else none

/-- Execute a schedule; `none` as soon as one of its actions is not enabled. -/
def run (s : State) : List Action → Option State
  | [] => some s
  | a :: rest =>
    match step s a with
    | some s1 => run s1 rest
    | none => none

/-- The states a run can reach from `s0`. -/
def Reachable (s0 s : State) : Prop := ∃ sched, run s0 sched = some s

/-- Number of `Process` goroutines between lines 31-34 and their return: the
requests occupying the server. -/
def inService (s : State) : Nat :=
  (s.procs.filter fun p =>
    match p.pc with
    | ProcPc.acquired _ => true
    | ProcPc.sleeping _ _ => true
    | _ => false).length

/-- How many of the two generators and the dispatcher have taken their stop
branch. -/
def stoppedCount (s : State) : Nat :=
  (if s.gen1.pc = GenPc.stopped then 1 else 0) +
  (if s.gen2.pc = GenPc.stopped then 1 else 0) +
  (if s.disp = DispPc.stopped then 1 else 0)

/-! ## Sequential runs of `Process` -/

/-- One hand-off of the dispatcher in a run where the `Process` calls execute
one at a time: the request, the idle nanoseconds before the call starts, and
the overshoot of its sleep. -/
structure Job where
  req : Request
  gap : Nat
  late : Nat
  deriving DecidableEq

/-- The calls of `Process` for a list of hand-offs, each run to completion
before the next one starts. -/
def processAll (s : Server) (processed waitTimeSumMilli now : Int) :
    List Job → ProcessResult
  | [] => { server := s, processed := processed, waitTimeSumMilli := waitTimeSumMilli, now := now }
  | j :: js =>
    let r := s.Process j.req processed waitTimeSumMilli (now + j.gap) j.late
    processAll r.server r.processed r.waitTimeSumMilli r.now js

/-! ## Observations on runs -/

/-- Sum of the amounts added at line 36 by the `Process` goroutines that were
given the accumulator of stream `i`. -/
def waitedSum (i : Stream) : List Proc → Int
  | [] => 0
  | p :: ps => (if p.stream = i then p.waited else 0) + waitedSum i ps

/-- Number of `Process` goroutines that have returned. -/
def doneCount : List Proc → Int
  | [] => 0
  | p :: ps => (if p.pc = ProcPc.done then 1 else 0) + doneCount ps

/-- The stop signal has been received once the handler is past its send. -/
def StopInv (s : State) : Prop :=
  stoppedCount s = if s.main = MainPc.poll ∨ s.main = MainPc.send then 0 else 1

/-- Past the polling loop the target has been reached, and the completion label
shows the target. -/
def MainInv (s : State) : Prop :=
  (s.main ≠ MainPc.poll → s.requestsCount ≤ s.processed) ∧
  (s.main = MainPc.done → s.statusLabel = Status.completed s.requestsCount)

/-- Every request in the system carries the `id` of the generator of the stream
it travels on. -/
def TypeInv (s : State) : Prop :=
  s.gen1.id = 1 ∧ s.gen2.id = 2 ∧
  (∀ req, s.gen1.pc = GenPc.sending req → req.typeID = 1) ∧
  (∀ req, s.gen2.pc = GenPc.sending req → req.typeID = 2) ∧
  (∀ req ∈ s.queue1, req.typeID = 1) ∧
  (∀ req ∈ s.queue2, req.typeID = 2) ∧
  (∀ req i, s.disp = DispPc.spin req i → req.typeID = i.id) ∧
  (∀ p ∈ s.procs, p.req.typeID = p.stream.id)

/-- The accumulators hold what the `Process` goroutines have added, and the
counter counts the goroutines that have returned. -/
def SumInv (s : State) : Prop :=
  s.waitTimeSum1Milli = waitedSum Stream.one s.procs ∧
  s.waitTimeSum2Milli = waitedSum Stream.two s.procs ∧
  s.processed = doneCount s.procs ∧
  (∀ p ∈ s.procs, (p.pc = ProcPc.entry ∨ ∃ d, p.pc = ProcPc.acquired d) → p.waited = 0)

/-! ## Schedules -/

/-- A number of milliseconds, in nanoseconds. -/
def ms (n : Nat) : Nat := n * 1000000

/-- Rates 5, 10, 3, 8.  Each generator produces one request (gaps 20 ms and
33 ms, service 10 ms and 12 ms); the dispatcher hands the first to the server
and, before that goroutine has run its first line, reads `busy = false` again
and hands over the second. -/
def overlapSchedule : List Action :=
  [Action.genInit Stream.one, Action.genInit Stream.two,
   Action.genDraw Stream.one 0 1, Action.genDraw Stream.two 0 1,
   Action.tick (ms 33),
   Action.genWake Stream.one, Action.genEnq Stream.one,
   Action.genWake Stream.two, Action.genEnq Stream.two,
   Action.dispRecv Stream.one, Action.dispSpawn,
   Action.dispRecv Stream.two, Action.dispSpawn,
   Action.procAcquire 0, Action.procAcquire 1]

/-- Rates 5, 10, 3, 8, target 1.  Generator 1 produces two requests (service
10 ms and 0 ms).  The server processes them one after the other, and the second
has returned before the handler next tests the counter; the handler then stops
the dispatcher and reports. -/
def overshootSchedule : List Action :=
  [Action.genInit Stream.one,
   Action.genDraw Stream.one 0 1, Action.tick (ms 20),
   Action.genWake Stream.one, Action.genEnq Stream.one,
   Action.genDraw Stream.one 0 (1 / 100), Action.tick (ms 20),
   Action.genWake Stream.one, Action.genEnq Stream.one,
   Action.dispRecv Stream.one, Action.dispSpawn,
   Action.procAcquire 0, Action.procWait 0,
   Action.dispRecv Stream.one,
   Action.tick (ms 10),
   Action.procRelease 0,
   Action.dispSpawn,
   Action.procAcquire 1, Action.procWait 1, Action.procRelease 1,
   Action.mainLeave, Action.dispStop,
   Action.mainElapsed, Action.mainFactLoad, Action.mainAvgWait1, Action.mainAvgWait2]

/-- Rates 5, 10, 3, 8, target 1.  One request of stream 1 is processed, the
handler sends its stop value and generator 1 receives it; the handler reports.
Generator 2 and the dispatcher then go on: a request of stream 2 is produced,
taken from its queue and handed to the server. -/
def lostStopSchedule : List Action :=
  [Action.genInit Stream.one, Action.genInit Stream.two,
   Action.genDraw Stream.one 0 1, Action.tick (ms 20),
   Action.genWake Stream.one, Action.genEnq Stream.one,
   Action.dispRecv Stream.one, Action.dispSpawn,
   Action.procAcquire 0, Action.procWait 0, Action.tick (ms 10), Action.procRelease 0,
   Action.mainLeave, Action.genStop Stream.one,
   Action.mainElapsed, Action.mainFactLoad, Action.mainAvgWait1, Action.mainAvgWait2,
   Action.genDraw Stream.two 0 1, Action.tick (ms 33),
   Action.genWake Stream.two, Action.genEnq Stream.two,
   Action.dispRecv Stream.two, Action.dispSpawn, Action.procAcquire 1]

/-- Rates 5, 10, 3, 8, target 2.  As `overlapSchedule`, with service 80 ms and
100 ms: both requests are in `Process` from 33 ms on, both return at 133 ms,
and the handler computes the utilization. -/
def overloadSchedule : List Action :=
  [Action.genInit Stream.one, Action.genInit Stream.two,
   Action.genDraw Stream.one 0 8, Action.genDraw Stream.two 0 8,
   Action.tick (ms 33),
   Action.genWake Stream.one, Action.genEnq Stream.one,
   Action.genWake Stream.two, Action.genEnq Stream.two,
   Action.dispRecv Stream.one, Action.dispSpawn,
   Action.dispRecv Stream.two, Action.dispSpawn,
   Action.procAcquire 0, Action.procAcquire 1,
   Action.procWait 0, Action.procWait 1,
   Action.tick (ms 100),
   Action.procRelease 0, Action.procRelease 1,
   Action.mainLeave, Action.dispStop,
   Action.mainElapsed, Action.mainFactLoad]

/-- All rates 1000, target 1.  The gap and the service time of the one request
both truncate to 0 ms, and the run is over within the first millisecond. -/
def instantSchedule : List Action :=
  [Action.genInit Stream.one,
   Action.genDraw Stream.one 0 1, Action.genWake Stream.one, Action.genEnq Stream.one,
   Action.dispRecv Stream.one, Action.dispSpawn,
   Action.procAcquire 0, Action.procWait 0, Action.procRelease 0,
   Action.mainLeave, Action.dispStop,
   Action.mainElapsed, Action.mainFactLoad]

/-- The handler alone: the test of line 174 succeeds at once, the dispatcher
receives the stop value, and lines 177-185 run. -/
def reportSchedule : List Action :=
  [Action.mainLeave, Action.dispStop, Action.mainElapsed, Action.mainFactLoad,
   Action.mainAvgWait1, Action.mainAvgWait2]

/-- Service times of a job list: finite, non-negative, with a duration that
fits the nanosecond range. -/
def JobsOK (jobs : List Job) : Prop :=
  ∀ j ∈ jobs, ∃ q : ℚ, j.req.serviceTime = F64.fin q ∧ 0 ≤ q ∧
    truncQ (q * 100) * Millisecond ≤ maxInt64

/-- Two hand-offs for the rates 5, 10, 3, 8: service 10 ms and 12 ms, the first
starting 20 ms after the start of the run. -/
def twoJobs : List Job :=
  [{ req := { arrivalTime := F64.fin (1 / 5), serviceTime := F64.fin (1 / 10), typeID := 1,
              inQueue := 20000000 }, gap := 20000000, late := 0 },
   { req := { arrivalTime := F64.fin (1 / 3), serviceTime := F64.fin (1 / 8), typeID := 2,
              inQueue := 33000000 }, gap := 3000000, late := 500 }]

/-! ## Theorems -/

/-! ### Numeric lemmas -/

theorem wrap64_eq_self {n : Int} (h1 : minInt64 ≤ n) (h2 : n ≤ maxInt64) : wrap64 n = n := by
  unfold wrap64
  unfold minInt64 at h1
  unfold maxInt64 at h2
  norm_num at h1 h2 ⊢
  omega

theorem truncQ_nonneg {q : ℚ} (h : 0 ≤ q) : 0 ≤ truncQ q := by
  unfold truncQ
  exact Int.tdiv_nonneg (Rat.num_nonneg.mpr h) (Int.ofNat_nonneg _)

theorem milliseconds_mul (n : Int) : milliseconds (n * Millisecond) = n := by
  unfold milliseconds
  exact Int.mul_tdiv_cancel n (by decide)

/-- The duration of a finite, non-negative service time that fits the
nanosecond range is its hundredfold, truncated, in milliseconds. -/
theorem scaledDuration_fin {q : ℚ} (h0 : 0 ≤ q)
    (hfit : truncQ (q * 100) * Millisecond ≤ maxInt64) :
    scaledDuration (F64.fin q) = truncQ (q * 100) * Millisecond := by
  have hn : 0 ≤ truncQ (q * 100) := truncQ_nonneg (by positivity)
  have hM : Millisecond = 1000000 := rfl
  have hle : truncQ (q * 100) ≤ maxInt64 := by
    rw [hM] at hfit
    omega
  have hmin : minInt64 ≤ truncQ (q * 100) := by
    unfold minInt64
    omega
  unfold scaledDuration
  simp only [F64.mul, durationOfF64, hmin, hle, and_self, if_true]
  apply wrap64_eq_self _ hfit
  unfold minInt64
  rw [hM]
  omega

/-! ### Runs -/

theorem run_preserves {P : State → Prop}
    (hstep : ∀ s a s1, P s → step s a = some s1 → P s1) :
    ∀ (sched : List Action) (s s1 : State), P s → run s sched = some s1 → P s1 := by
  intro sched
  induction sched with
  | nil =>
    intro s s1 hP h
    simp only [run, Option.some.injEq] at h
    exact h ▸ hP
  | cons a rest ih =>
    intro s s1 hP h
    simp only [run] at h
    split at h
    · rename_i s2 h2
      exact ih s2 s1 (hstep s a s2 hP h2) h
    · cases h

theorem reachable_preserves {P : State → Prop}
    (hstep : ∀ s a s1, P s → step s a = some s1 → P s1)
    {s0 s : State} (h0 : P s0) (h : Reachable s0 s) : P s := by
  obtain ⟨sched, hs⟩ := h
  exact run_preserves hstep sched s0 s h0 hs

theorem step_requestsCount {s s1 : State} {a : Action} (h : step s a = some s1) :
    s1.requestsCount = s.requestsCount := by
  cases a <;> simp only [step] at h <;> (repeat' split at h) <;> cases h <;>
    first
    | rfl
    | (simp only [State.setGen, State.setQueue, State.addWait]; (repeat' split) <;> rfl)

theorem step_stopInv {s s1 : State} {a : Action} (hP : StopInv s) (h : step s a = some s1) :
    StopInv s1 := by
  unfold StopInv stoppedCount at hP
  rcases a with d | i | i | ⟨i, u, e⟩ | i | i | _ | i | _ | k | k | k | _ | _ | _ | _ | _ <;>
    (try cases i) <;>
    simp only [step, State.gen, State.setGen, State.setQueue, State.queue, State.addWait] at h <;>
    (repeat' split at h) <;> cases h <;>
    simp only [StopInv, stoppedCount] <;>
    (first | exact hP | (solve | simp_all))

theorem step_mainInv {s s1 : State} {a : Action} (hP : MainInv s) (h : step s a = some s1) :
    MainInv s1 := by
  obtain ⟨h1, h2⟩ := hP
  rcases a with d | i | i | ⟨i, u, e⟩ | i | i | _ | i | _ | k | k | k | _ | _ | _ | _ | _ <;>
    (try cases i) <;>
    simp only [step, State.gen, State.setGen, State.setQueue, State.queue, State.addWait] at h <;>
    (repeat' split at h) <;> cases h <;>
    simp only [MainInv] <;>
    (first
      | exact ⟨h1, h2⟩
      | (solve | simp_all)
      | exact ⟨fun hm => by have := h1 hm; omega, h2⟩)

theorem engineStart_invariants (rate1 serviceRate1 rate2 serviceRate2 : ℚ)
    (requestsCount now : Int) :
    StopInv (engineStart rate1 serviceRate1 rate2 serviceRate2 requestsCount now) ∧
    MainInv (engineStart rate1 serviceRate1 rate2 serviceRate2 requestsCount now) ∧
    SumInv (engineStart rate1 serviceRate1 rate2 serviceRate2 requestsCount now) ∧
    TypeInv (engineStart rate1 serviceRate1 rate2 serviceRate2 requestsCount now) := by
  refine ⟨?_, ?_, ?_, ?_⟩
  · simp [StopInv, stoppedCount, engineStart]
  · simp [MainInv, engineStart]
  · simp [SumInv, engineStart, waitedSum, doneCount]
  · simp [TypeInv, engineStart]

/-- In every state of every run at most one of the two generators and the
dispatcher has taken its stop branch, and one has exactly when the handler is
past its send: the single value sent on `stopChan` is received once. -/
theorem stop_received_once (rate1 serviceRate1 rate2 serviceRate2 : ℚ)
    (requestsCount now : Int) (s : State)
    (h : Reachable (engineStart rate1 serviceRate1 rate2 serviceRate2 requestsCount now) s) :
    stoppedCount s ≤ 1 ∧
    (stoppedCount s = 1 ↔ (s.main ≠ MainPc.poll ∧ s.main ≠ MainPc.send)) := by
  have hP : StopInv s := reachable_preserves (P := StopInv)
    (fun t a t1 ht hstep => step_stopInv ht hstep)
    (engineStart_invariants rate1 serviceRate1 rate2 serviceRate2 requestsCount now).1 h
  unfold StopInv at hP
  rw [hP]
  by_cases hm : s.main = MainPc.poll ∨ s.main = MainPc.send
  · simp only [hm, if_true]
    refine ⟨by omega, ?_⟩
    constructor
    · intro h0
      omega
    · intro hn
      rcases hm with hm | hm
      · exact absurd hm hn.1
      · exact absurd hm hn.2
  · simp only [hm, if_false]
    refine ⟨le_refl _, ?_⟩
    constructor
    · intro _
      exact ⟨fun h1 => hm (Or.inl h1), fun h2 => hm (Or.inr h2)⟩
    · intro _
      trivial

theorem sleepSpan_nonneg (d : Int) : 0 ≤ sleepSpan d := le_max_right d 0

theorem processAll_now_le (jobs : List Job) :
    ∀ (s : Server) (processed w now : Int), now ≤ (processAll s processed w now jobs).now := by
  induction jobs with
  | nil =>
    intro s processed w now
    exact le_refl _
  | cons j js ih =>
    intro s processed w now
    simp only [processAll]
    refine le_trans ?_ (ih _ _ _ _)
    simp only [Server.Process]
    have := sleepSpan_nonneg (scaledDuration j.req.serviceTime)
    omega

theorem processAll_busyTime_le (jobs : List Job) :
    ∀ (s : Server) (processed w now start : Int),
      JobsOK jobs → 0 ≤ s.busyTime → s.busyTime * Millisecond ≤ now - start →
      (processAll s processed w now jobs).now - start ≤ maxInt64 →
      0 ≤ (processAll s processed w now jobs).server.busyTime ∧
      (processAll s processed w now jobs).server.busyTime * Millisecond
        ≤ (processAll s processed w now jobs).now - start := by
  induction jobs with
  | nil =>
    intro s processed w now start _ h0 hb _
    exact ⟨h0, hb⟩
  | cons j js ih =>
    intro s processed w now start hj h0 hb hfin
    obtain ⟨q, hq, hq0, hfit⟩ := hj j (List.mem_cons_self _ _)
    have hjs : JobsOK js := fun x hx => hj x (List.mem_cons_of_mem _ hx)
    have hn : 0 ≤ truncQ (q * 100) := truncQ_nonneg (by positivity)
    have hd := scaledDuration_fin hq0 hfit
    have hM : Millisecond = 1000000 := rfl
    simp only [processAll] at hfin ⊢
    have hmono := processAll_now_le js
      (s.Process j.req processed w (now + j.gap) j.late).server
      (s.Process j.req processed w (now + j.gap) j.late).processed
      (s.Process j.req processed w (now + j.gap) j.late).waitTimeSumMilli
      (s.Process j.req processed w (now + j.gap) j.late).now
    have hnow : (s.Process j.req processed w (now + j.gap) j.late).now
        = now + j.gap + truncQ (q * 100) * Millisecond + j.late := by
      simp only [Server.Process, hq, hd, sleepSpan]
      rw [max_eq_left (by rw [hM]; omega)]
    have hsum : (s.busyTime + truncQ (q * 100)) * Millisecond
        ≤ (s.Process j.req processed w (now + j.gap) j.late).now - start := by
      rw [hnow, add_mul]
      have := Int.ofNat_nonneg j.gap
      have := Int.ofNat_nonneg j.late
      omega
    have hle : s.busyTime + truncQ (q * 100) ≤ maxInt64 := by
      have h1 : (s.busyTime + truncQ (q * 100)) * Millisecond ≤ maxInt64 := by omega
      rw [hM] at h1
      omega
    have hbt : (s.Process j.req processed w (now + j.gap) j.late).server.busyTime
        = s.busyTime + truncQ (q * 100) := by
      simp only [Server.Process, Server.release, hq, hd, milliseconds_mul]
      apply wrap64_eq_self _ hle
      unfold minInt64
      omega
    apply ih _ _ _ _ start hjs
    · rw [hbt]; omega
    · rw [hbt]; exact hsum
    · exact hfin

/-! ### The start handler -/

/-- The sequential `Process` is what the transition system does when the three
sections of one `Process` goroutine run with nothing in between but its sleep:
same server, same counter, same accumulator, same clock. -/
theorem Process_as_steps (s : State) (k : Nat) (p : Proc) (late : Nat)
    (hk : s.procs[k]? = some p) (hpc : p.pc = ProcPc.entry) :
    ∃ s1,
      run s [Action.procAcquire k, Action.procWait k,
             Action.tick ((sleepSpan (scaledDuration p.req.serviceTime)).toNat + late),
             Action.procRelease k] = some s1 ∧
      s1.server
        = (s.server.Process p.req s.processed (s.waitTimeSumMilli p.stream) s.clock late).server ∧
      s1.processed
        = (s.server.Process p.req s.processed (s.waitTimeSumMilli p.stream) s.clock
            late).processed ∧
      s1.waitTimeSumMilli p.stream
        = (s.server.Process p.req s.processed (s.waitTimeSumMilli p.stream) s.clock
            late).waitTimeSumMilli ∧
      s1.clock
        = (s.server.Process p.req s.processed (s.waitTimeSumMilli p.stream) s.clock late).now := by
  have hlt : k < s.procs.length := by
    rcases List.getElem?_eq_some.mp hk with ⟨h, _⟩
    exact h
  have hnn := sleepSpan_nonneg (scaledDuration p.req.serviceTime)
  have htn : ((sleepSpan (scaledDuration p.req.serviceTime)).toNat : Int)
      = sleepSpan (scaledDuration p.req.serviceTime) := Int.toNat_of_nonneg hnn
  cases hst : p.stream <;>
  simp [run, step, hk, hpc, hlt, hst, State.addWait, State.waitTimeSumMilli, Server.Process,
      Server.acquire, Server.release, htn, add_assoc]

/-- C10. The amount one call of `Process` adds to the wait accumulator it was
given is the whole milliseconds from the request's `inQueue` stamp to the clock
reading `now` at which the call takes the server; it is taken before the sleep
(the call returns no earlier than `now`), and it is the same whatever the
request's service time. -/
theorem Process_wait (s : Server) (req : Request) (processed waitTimeSumMilli now : Int)
    (late : Nat) :
    (s.Process req processed waitTimeSumMilli now late).waitTimeSumMilli
      = waitTimeSumMilli + Int.tdiv (now - req.inQueue) 1000000 ∧
    (∀ serviceTime : F64,
      (s.Process { req with serviceTime := serviceTime } processed waitTimeSumMilli now
          late).waitTimeSumMilli
        = (s.Process req processed waitTimeSumMilli now late).waitTimeSumMilli) ∧
    now ≤ (s.Process req processed waitTimeSumMilli now late).now ∧
    (s.Process req processed waitTimeSumMilli now late).now
      = now + max (scaledDuration req.serviceTime) 0 + late := by
  refine ⟨rfl, fun _ => rfl, ?_, rfl⟩
  simp only [Server.Process, sleepSpan]
  have := le_max_right (scaledDuration req.serviceTime) 0
  omega

/-! ### The run as a whole -/

/-- C2, as stated, fails.  With target 1 the server processes two requests one
after the other before the handler next tests the counter; the run is then
reported complete (the label says 1) while the counter is 2. -/
theorem processed_exceeds_target :
    (run (engineStart 5 10 3 8 1 0) overshootSchedule).map
        (fun s => (s.main, s.statusLabel, s.requestsCount, s.processed))
      = some (MainPc.done, Status.completed 1, 1, 2) := by
  with_unfolding_all decide

/-- C2, amended.  From the moment the test of the main loop succeeds, and so
when the stop value is sent and when the run is reported complete, the counter
is at least the target; the count shown in the completion label is the target
itself. -/
theorem processed_at_least_target (rate1 serviceRate1 rate2 serviceRate2 : ℚ)
    (requestsCount now : Int) (s : State)
    (h : Reachable (engineStart rate1 serviceRate1 rate2 serviceRate2 requestsCount now) s)
    (hm : s.main ≠ MainPc.poll) :
    requestsCount ≤ s.processed ∧
    (s.main = MainPc.done → s.statusLabel = Status.completed requestsCount) := by
  have hP : MainInv s := reachable_preserves (P := MainInv)
    (fun t a t1 ht hstep => step_mainInv ht hstep)
    (engineStart_invariants rate1 serviceRate1 rate2 serviceRate2 requestsCount now).2.1 h
  have hn : s.requestsCount = requestsCount := reachable_preserves
    (P := fun t => t.requestsCount = requestsCount)
    (fun t a t1 ht hstep => (step_requestsCount hstep).trans ht) rfl h
  rw [← hn]
  exact ⟨hP.1 hm, hP.2⟩

set_option maxRecDepth 2000 in
/-- Witness for C2 amended: the run of `overshootSchedule`, target 1. -/
theorem processed_at_least_target_witness :
    ∃ s, run (engineStart 5 10 3 8 1 0) overshootSchedule = some s ∧
      s.main = MainPc.done ∧ (1 : Int) ≤ s.processed ∧
      s.statusLabel = Status.completed 1 := by
  have hr : (run (engineStart 5 10 3 8 1 0) overshootSchedule).map (fun s => s.main)
      = some MainPc.done := by
    with_unfolding_all decide
  obtain ⟨s, hs, hd⟩ := Option.map_eq_some'.mp hr
  have h := processed_at_least_target 5 10 3 8 1 0 s ⟨overshootSchedule, hs⟩
    (by rw [hd]; decide)
  exact ⟨s, hs, hd, h.1, h.2 hd⟩

/-- C3: the code breaks it.  Along `overlapSchedule` the dispatcher starts each
`Process` only after reading `busy = false` (before the second start the flag
is still `false`, the first goroutine not having run yet), and yet two
`Process` goroutines are past their first section and before their return at
once. -/
theorem two_requests_in_service :
    (run (engineStart 5 10 3 8 50 0) (overlapSchedule.take 12)).map
        (fun s => (s.server.busy, s.procs.length, inService s))
      = some (false, 1, 0) ∧
    (run (engineStart 5 10 3 8 50 0) overlapSchedule).map
        (fun s => (inService s, s.server.busy, s.procs.map (fun p => p.req.typeID)))
      = some (2, true, [1, 2]) := by
  refine ⟨?_, ?_⟩
  · with_unfolding_all decide
  · with_unfolding_all decide

/-- C4, as stated, fails.  With the two requests of `overloadSchedule` in
`Process` at once, 180 busy milliseconds are accumulated in 133 elapsed ones and
the utilization is 180/133 > 1; and in `instantSchedule` the run completes with
0 elapsed milliseconds, so that the quotient is 0/0. -/
theorem factLoad_outside_unit_interval :
    (run (engineStart 5 10 3 8 2 0) overloadSchedule).map
        (fun s => (s.processed, s.server.busyTime, s.elapsed, s.factLoadLabel))
      = some (2, 180, 133, some (F64.fin (180 / 133))) ∧
    (1 : ℚ) < 180 / 133 ∧
    (run (engineStart 1000 1000 1000 1000 1 0) instantSchedule).map
        (fun s => (s.processed, s.server.busyTime, s.elapsed, s.factLoadLabel))
      = some (1, 0, 0, some F64.nan) := by
  refine ⟨?_, ?_, ?_⟩
  · with_unfolding_all decide
  · norm_num
  · with_unfolding_all decide

/-- C4, amended.  For a run in which the `Process` calls execute one at a time
(no two overlap) and have all returned when the elapsed time is taken, with
finite non-negative service times, an elapsed time that fits `int64` and at
least one whole millisecond elapsed: the accumulated busy milliseconds are
between 0 and the elapsed milliseconds, and the utilization is a finite number
in [0, 1]. -/
theorem factLoad_unit_interval (jobs : List Job) (startTime : Int) (idle : Nat)
    (hjobs : JobsOK jobs)
    (hfits : (processAll { busy := false, busyTime := 0 } 0 0 startTime jobs).now + idle
        - startTime ≤ maxInt64)
    (hpos : 0 < milliseconds
      ((processAll { busy := false, busyTime := 0 } 0 0 startTime jobs).now + idle - startTime)) :
    0 ≤ (processAll { busy := false, busyTime := 0 } 0 0 startTime jobs).server.busyTime ∧
    (processAll { busy := false, busyTime := 0 } 0 0 startTime jobs).server.busyTime
      ≤ milliseconds
          ((processAll { busy := false, busyTime := 0 } 0 0 startTime jobs).now + idle
            - startTime) ∧
    ∃ u : ℚ,
      factLoad (processAll { busy := false, busyTime := 0 } 0 0 startTime jobs).server.busyTime
          (milliseconds
            ((processAll { busy := false, busyTime := 0 } 0 0 startTime jobs).now + idle
              - startTime))
        = F64.fin u ∧ 0 ≤ u ∧ u ≤ 1 := by
  have hM : Millisecond = 1000000 := rfl
  have hidle := Int.ofNat_nonneg idle
  obtain ⟨hb0, hb⟩ := processAll_busyTime_le jobs { busy := false, busyTime := 0 } 0 0
    startTime startTime hjobs (le_refl _) (by simp) (by omega)
  generalize (processAll { busy := false, busyTime := 0 } 0 0 startTime jobs) = r at *
  have hE : 0 ≤ r.now + idle - startTime := by
    have : 0 ≤ r.server.busyTime * Millisecond := by rw [hM]; omega
    omega
  have hms : milliseconds (r.now + idle - startTime) = (r.now + idle - startTime) / 1000000 := by
    unfold milliseconds
    rw [hM]
    exact Int.tdiv_eq_ediv hE (by decide)
  have hle : r.server.busyTime ≤ milliseconds (r.now + idle - startTime) := by
    rw [hms]
    rw [hM] at hb
    omega
  refine ⟨hb0, hle, ?_⟩
  generalize milliseconds (r.now + idle - startTime) = el at *
  have h2 : (0 : ℚ) < el := by exact_mod_cast hpos
  refine ⟨(r.server.busyTime : ℚ) / (el : ℚ), ?_, ?_, ?_⟩
  · simp [factLoad, F64.div, F64.ofInt, ne_of_gt h2]
  · have h1 : (0 : ℚ) ≤ r.server.busyTime := by exact_mod_cast hb0
    positivity
  · rw [div_le_one h2]
    exact_mod_cast hle

/-- Witness for C4 amended: the two hand-offs of `twoJobs`, read 7 ms after the
second has returned; 22 busy milliseconds in 52 elapsed ones. -/
theorem factLoad_unit_interval_witness :
    (processAll { busy := false, busyTime := 0 } 0 0 0 twoJobs).server.busyTime = 22 ∧
    milliseconds ((processAll { busy := false, busyTime := 0 } 0 0 0 twoJobs).now
      + (7000000 : Nat) - 0) = 52 ∧
    ∃ u : ℚ,
      factLoad (processAll { busy := false, busyTime := 0 } 0 0 0 twoJobs).server.busyTime
          (milliseconds ((processAll { busy := false, busyTime := 0 } 0 0 0 twoJobs).now
            + (7000000 : Nat) - 0))
        = F64.fin u ∧ 0 ≤ u ∧ u ≤ 1 := by
  have hj : JobsOK twoJobs := by
    intro j hj
    simp only [twoJobs, List.mem_cons, List.mem_singleton, List.not_mem_nil, or_false] at hj
    rcases hj with rfl | rfl
    · exact ⟨1 / 10, rfl, by norm_num, by with_unfolding_all decide⟩
    · exact ⟨1 / 8, rfl, by norm_num, by with_unfolding_all decide⟩
  exact ⟨by with_unfolding_all decide, by with_unfolding_all decide,
    (factLoad_unit_interval twoJobs 0 7000000 hj (by with_unfolding_all decide)
      (by with_unfolding_all decide)).2.2⟩

/-- C6, as stated, fails.  With target 0 the run is not rejected; the handler
leaves its loop at once and computes both average waits with the divisor
`processed = 0` (and the utilization with `elapsed = 0`): all three are NaN. -/
theorem zero_target_divides_by_zero :
    startButton { rateEntry1 := some 5, serviceRateEntry1 := some 10, rateEntry2 := some 3,
                  serviceRateEntry2 := some 8, requestsCountEntry := some 0 } 0
      = StartResult.started (engineStart 5 10 3 8 0 0) ∧
    (run (engineStart 5 10 3 8 0 0)
        [Action.mainLeave, Action.dispStop, Action.mainElapsed, Action.mainFactLoad]).map
        (fun s => (s.main, s.processed, s.waitTimeSum1Milli, s.waitTimeSum2Milli, s.elapsed))
      = some (MainPc.avgWait1At, 0, 0, 0, 0) ∧
    (run (engineStart 5 10 3 8 0 0) reportSchedule).map
        (fun s => (s.statusLabel, s.factLoadLabel, s.avgWaitLabel))
      = some (Status.completed 0, some F64.nan, some (F64.nan, F64.nan)) := by
  refine ⟨rfl, ?_, ?_⟩
  · with_unfolding_all decide
  · with_unfolding_all decide

/-- C6, amended.  Whatever the rates, a run started with target count 0 is not
rejected: the first test of the main loop succeeds and the run is reported
complete with 0 processed requests.  The metrics are computed without a guard:
each average wait is the `float64` quotient of a wait sum by `processed`, which
for `processed = 0` is never a finite number, and in the immediate report both
average waits and the utilization are 0/0 = NaN. -/
theorem zero_target_report (rate1 serviceRate1 rate2 serviceRate2 : ℚ) (now : Int) :
    startButton { rateEntry1 := some rate1, serviceRateEntry1 := some serviceRate1,
                  rateEntry2 := some rate2, serviceRateEntry2 := some serviceRate2,
                  requestsCountEntry := some 0 } now
      = StartResult.started (engineStart rate1 serviceRate1 rate2 serviceRate2 0 now) ∧
    (run (engineStart rate1 serviceRate1 rate2 serviceRate2 0 now) reportSchedule).map
        (fun s => (s.main, s.statusLabel, s.processed, s.factLoadLabel, s.avgWaitLabel))
      = some (MainPc.done, Status.completed 0, 0, some F64.nan, some (F64.nan, F64.nan)) ∧
    (∀ (w : Int) (q : ℚ), avgWait w 0 ≠ F64.fin q) := by
  refine ⟨rfl, ?_, ?_⟩
  · simp [reportSchedule, run, step, engineStart, factLoad, avgWait, milliseconds, F64.div,
      F64.ofInt, F64.infOfSign]
  · intro w q
    simp only [avgWait, F64.ofInt, F64.div, Int.cast_zero, if_true, F64.infOfSign]
    split_ifs <;> simp

/-- C7: the code breaks it.  Along `lostStopSchedule` generator 1 receives the
stop value and returns, and the handler reports.  Generator 2 and the dispatcher
have not stopped: afterwards generator 2 enqueues a request, and the dispatcher
takes it and hands it to the server. -/
theorem stop_not_broadcast :
    (run (engineStart 5 10 3 8 1 0) (lostStopSchedule.take 18)).map
        (fun s => (s.main, s.gen1.pc, s.gen2.pc, s.disp, s.procs.length, s.queue2.length))
      = some (MainPc.done, GenPc.stopped, GenPc.select, DispPc.select, 1, 0) ∧
    (run (engineStart 5 10 3 8 1 0) lostStopSchedule).map
        (fun s => (s.main, stoppedCount s, s.gen2.pc, s.disp, s.procs.length, inService s))
      = some (MainPc.done, 1, GenPc.select, DispPc.select, 2, 1) := by
  refine ⟨?_, ?_⟩
  · with_unfolding_all decide
  · with_unfolding_all decide

end ExpPlanning
